import Mathlib

/-!
# Verification of the WaterMarkTool watermark compositing engine

Shallow embedding of `WatermarkProcessor` from `src/waterMark.py`
(`apply_text_watermark`, `apply_image_watermark`, `process`) and of the
pixel-level semantics of the imaging-library operations it invokes
(alpha compositing, masked drawing, masked paste).

Conventions of the embedding:
* Python unbounded `int` is `Int` (or `Nat` where the source value is
  manifestly non-negative, e.g. 8-bit channel values and percentages);
* Python `//` on integers is floor division (`Int.fdiv`; on `Nat` the
  ordinary `/`);
* Python `float` arithmetic is modelled exactly over `ℚ`, and `int(x)`
  on a non-negative value is `⌊x⌋`;
* images are total functions from coordinates to pixels; external
  rasterisation (font rendering) and Gaussian blur are abstract
  parameters constrained only by the hypotheses each theorem states.
-/

namespace WaterMark

/-- An 8-bit RGBA pixel (channel values 0–255 in actual images; the
embedding does not build the bound into the type). -/
structure Px where
  r : Nat
  g : Nat
  b : Nat
  a : Nat
deriving DecidableEq, Repr

/-- Pixel coordinates. -/
abbrev Pos := Int × Int

/-- An RGB pixel of the base image (`self.original_image` after the
BGR→RGB conversion). -/
abbrev RGB := Nat × Nat × Nat

/-- `Image.new('RGBA', image.size, (255, 255, 255, 0))`: every pixel of
the fresh overlay. -/
def transparentPx : Px := ⟨255, 255, 255, 0⟩

/-- The `positions` lookup table of `apply_text_watermark`
(waterMark.py lines 170–176): a dict keyed by the position string, read
with `.get(position, bottom-right formula)`, so any unknown key falls
back to the bottom-right anchor. -/
def textAnchor (width height text_width text_height offset_x offset_y : Int)
    (position : String) : Int × Int :=
  if position = "右下角" then
    (width - text_width - offset_x, height - text_height - offset_y)
  else if position = "左下角" then
    (offset_x, height - text_height - offset_y)
  else if position = "左上角" then
    (offset_x, offset_y)
  else if position = "右上角" then
    (width - text_width - offset_x, offset_y)
  else
    (width - text_width - offset_x, height - text_height - offset_y)

/-- `int(text_params_px.get("opacity", 50)) * 255 // 100` (waterMark.py
line 275): the 0–100 opacity percentage converted to the 0–255 alpha
passed to `apply_text_watermark` and used as the glyph fill alpha. -/
def glyphOpacityAlpha (opacity : Nat) : Nat := opacity * 255 / 100

/-- `desired_shadow_alpha = int(opacity * shadow_intensity / 100)`
(waterMark.py line 188); `opacity` here is already the 0–255 fill
alpha. Python true division followed by `int` truncation on
non-negative values is floor division. -/
def shadowDesiredAlpha (opacity shadow_intensity : Nat) : Nat :=
  opacity * shadow_intensity / 100

/-- Pixel value of the shadow mask (waterMark.py lines 186–189):
`ImageChops.subtract(blurred, mask)` clamps at 0 (which `Nat`
subtraction does), then `.point(lambda p: p * (desired / 255.0))`
scales and truncates to an integer. -/
def shadowMaskAlpha (blurredVal maskVal desired : Nat) : Nat :=
  (blurredVal - maskVal) * desired / 255

/-- One channel of PIL's masked blend (`paste` / `ImageDraw` drawing
through a coverage mask `m ∈ 0..255`): `(dst·(255−m) + src·m) / 255`.
At `m = 0` this is exactly `dst`, at `m = 255` exactly `src`. -/
def blendCoverage (dstc srcc cov : Nat) : Nat :=
  (dstc * (255 - cov) + srcc * cov) / 255

/-- `draw.text(text_pos, text, font=font, fill=...)` on an RGBA image
(waterMark.py line 198): the fill colour is blended into the image
through the glyph coverage `cov` of this pixel, on all four channels. -/
def drawTextPx (dst : Px) (cov : Nat) (fill : Px) : Px :=
  ⟨blendCoverage dst.r fill.r cov, blendCoverage dst.g fill.g cov,
   blendCoverage dst.b fill.b cov, blendCoverage dst.a fill.a cov⟩

/-- `Image.alpha_composite(dst, src)`: the straight-alpha "over"
operator on 8-bit channels.  `αₒ = αₛ + αd·(255−αₛ)/255` and
`Cₒ = (Cₛ·αₛ·255 + Cd·αd·(255−αₛ)) / (255·αₒ)`; when the output alpha
is zero the pixel is all zero.  Divisions are floor, which agrees with
the library wherever the quotient is exact (the only cases the theorems
below rely on). -/
def alphaCompositePx (dst src : Px) : Px :=
  let ao := src.a + dst.a * (255 - src.a) / 255
  if ao = 0 then ⟨0, 0, 0, 0⟩
  else
    ⟨(src.r * src.a * 255 + dst.r * dst.a * (255 - src.a)) / (255 * ao),
     (src.g * src.a * 255 + dst.g * dst.a * (255 - src.a)) / (255 * ao),
     (src.b * src.a * 255 + dst.b * dst.a * (255 - src.a)) / (255 * ao),
     ao⟩

/-- One pixel of the overlay produced by `apply_text_watermark`
(waterMark.py lines 164–199).  `cov` is the glyph coverage of the text
at this pixel (the same rasterisation drives both the shadow mask drawn
with `fill=255` and the final `draw.text`), `blurredCov` the value of
the Gaussian-blurred mask here, `fillAlpha` the 0–255 alpha received as
the `opacity` argument.  The shadow branch composites a black layer
whose alpha is the scaled `ImageChops.subtract` result; the glyph is
then drawn on top. -/
def textOverlayPx (cov blurredCov fillAlpha : Nat) (shadow : Bool)
    (shadow_width shadow_intensity : Nat) : Px :=
  let afterShadow :=
    if shadow ∧ 0 < shadow_width then
      alphaCompositePx transparentPx
        ⟨0, 0, 0, shadowMaskAlpha blurredCov cov
          (shadowDesiredAlpha fillAlpha shadow_intensity)⟩
    else transparentPx
  drawTextPx afterShadow cov ⟨255, 255, 255, fillAlpha⟩

/-- `wm_opacity = int(image_params.get("opacity", 80)) * 255 // 100`
(waterMark.py line 204). -/
def wmOpacity8 (opacity : Nat) : Nat := opacity * 255 / 100

/-- `Image.eval(alpha, lambda a: wm_opacity * a // 255)` (waterMark.py
line 232): the alpha channel value actually stored for a source alpha
`a` at configured opacity percentage `opacity`. -/
def wmAlphaApplied (opacity a : Nat) : Nat := wmOpacity8 opacity * a / 255

/-- Modelled from the spec wording of §4.2 ("multiply existing
per-pixel alpha channel by `(configured_opacity/100)`, pixel-wise"),
for comparison with `wmAlphaApplied`: the proportional value, floored
to an integer. -/
def wmAlphaSpec (opacity a : Nat) : Nat := a * opacity / 100

/-- The resize target of `apply_image_watermark` (waterMark.py lines
209–225): the watermark's short side is scaled to
`min(bg_w, bg_h) * size_percent / 100` (float arithmetic, modelled over
`ℚ`), and `new_w = int(wm_w * scale)`, `new_h = int(wm_h * scale)`
truncate the scaled dimensions. -/
def wmNewSize (bgW bgH sizePercent wmW wmH : Nat) : Int × Int :=
  let shortSide : ℚ := (min bgW bgH : Nat)
  let target : ℚ := shortSide * ((sizePercent : ℚ) / 100)
  let wmShort : ℚ := (min wmW wmH : Nat)
  let scale : ℚ := target / wmShort
  (⌊(wmW : ℚ) * scale⌋, ⌊(wmH : ℚ) * scale⌋)

/-- The `wm_positions` lookup table of `apply_image_watermark`
(waterMark.py lines 240–246), read with `.get(watermark_pos, "上"
formula)`, so any unknown key falls back to the "above" placement.
Python `//` on possibly-negative integers is floor division
(`Int.fdiv`). -/
def wmAnchor (text_x text_y text_width text_height wm_w wm_h spacing : Int)
    (position : String) : Int × Int :=
  if position = "下" then
    (text_x + (text_width - wm_w).fdiv 2, text_y + text_height + spacing)
  else if position = "上" then
    (text_x + (text_width - wm_w).fdiv 2, text_y - wm_h - spacing)
  else if position = "左" then
    (text_x - wm_w - spacing, text_y + (text_height - wm_h).fdiv 2)
  else if position = "右" then
    (text_x + text_width + spacing, text_y + (text_height - wm_h).fdiv 2)
  else
    (text_x + (text_width - wm_w).fdiv 2, text_y - wm_h - spacing)

/-- `overlay.paste(wm_resized, wm_pos, wm_resized)`: masked paste using
the watermark's own alpha as the mask, blending all four channels. -/
def pastePx (dst src : Px) : Px :=
  ⟨blendCoverage dst.r src.r src.a, blendCoverage dst.g src.g src.a,
   blendCoverage dst.b src.b src.a, blendCoverage dst.a src.a src.a⟩

/-- `apply_image_watermark` (waterMark.py lines 201–248) as a function
on overlay images.  `resize` abstracts the LANCZOS resampler (its pixel
values are irrelevant to the claims; only the target size and the
subsequent alpha adjustment are computed concretely).  The resized
copy's alpha is scaled by `wmAlphaApplied`, the paste position comes
from `wmAnchor`, and pixels outside the pasted rectangle keep the
overlay's value (out-of-canvas pixels are clipped by `paste`, which a
total function on coordinates renders automatic). -/
def applyImageWatermark (overlay watermark : Pos → Px)
    (resize : (Pos → Px) → Int × Int → Pos → Px)
    (bgW bgH wmW wmH sizePercent opacity : Nat) (spacing : Int)
    (textPos textSize : Int × Int) (position : String) : Pos → Px :=
  let newSize := wmNewSize bgW bgH sizePercent wmW wmH
  let resized := resize watermark newSize
  let adjusted : Pos → Px := fun p =>
    let q := resized p
    ⟨q.r, q.g, q.b, wmAlphaApplied opacity q.a⟩
  let pos := wmAnchor textPos.1 textPos.2 textSize.1 textSize.2
    newSize.1 newSize.2 spacing position
  fun p =>
    if pos.1 ≤ p.1 ∧ p.1 < pos.1 + newSize.1 ∧
       pos.2 ≤ p.2 ∧ p.2 < pos.2 + newSize.2 then
      pastePx (overlay p) (adjusted (p.1 - pos.1, p.2 - pos.2))
    else overlay p

/-- The text-watermark knobs read from `text_params` by `process`. -/
structure TextParams where
  position : String
  font_size : Nat
  opacity : Nat
  offset_x : Int
  offset_y : Int
  shadow : Bool
  shadow_width : Nat
  shadow_intensity : Nat

/-- The image-watermark knobs read from `image_params`. -/
structure ImageParams where
  position : String
  size : Nat
  opacity : Nat
  spacing : Int

/-- `WatermarkProcessor.process` (waterMark.py lines 251–289) as a
function on images.  Font rasterisation is delegated to the imaging
library, so it enters as two abstract parameters: `textBBox fp sz t`
is the `draw.textbbox` width/height of text `t` in the font at `fp`
at pixel size `sz`, and `textCov fp sz t` its glyph coverage at each
pixel of the canvas (the same rasterisation drives the shadow mask and
the final draw); `blur` abstracts `ImageFilter.GaussianBlur` and
`resize` the LANCZOS resampler.  The pipeline: convert the base to
RGBA, make a transparent overlay, render the text overlay and
alpha-composite it on, optionally add the image watermark, and
alpha-composite the overlay onto the base. -/
def processImage (base : Pos → RGB) (bgW bgH : Nat) (fontPath : String)
    (textBBox : String → Nat → String → Nat × Nat)
    (textCov : String → Nat → String → Pos → Nat)
    (blur : (Pos → Nat) → Pos → Nat)
    (resize : (Pos → Px) → Int × Int → Pos → Px)
    (text : String) (tp : TextParams)
    (imageWm : Option ((Pos → Px) × Nat × Nat)) (ip : ImageParams) :
    Pos → Px :=
  let fontSizePx := min bgW bgH * tp.font_size / 100
  let fillAlpha := glyphOpacityAlpha tp.opacity
  let tw := (textBBox fontPath fontSizePx text).1
  let th := (textBBox fontPath fontSizePx text).2
  let textPos := textAnchor bgW bgH tw th tp.offset_x tp.offset_y tp.position
  let cov := textCov fontPath fontSizePx text
  let blurred := blur cov
  let textOverlay : Pos → Px := fun p =>
    textOverlayPx (cov p) (blurred p) fillAlpha tp.shadow tp.shadow_width
      tp.shadow_intensity
  let overlay1 : Pos → Px := fun p =>
    alphaCompositePx transparentPx (textOverlay p)
  let overlay2 : Pos → Px :=
    match imageWm with
    | none => overlay1
    | some (wm, wmW, wmH) =>
        applyImageWatermark overlay1 wm resize bgW bgH wmW wmH ip.size
          ip.opacity ip.spacing textPos (tw, th) ip.position
  fun p =>
    alphaCompositePx ⟨(base p).1, (base p).2.1, (base p).2.2, 255⟩
      (overlay2 p)

/-- The fields of a `WatermarkProcessor` instance (`self.original_image`
and `self.font_path`). -/
structure ProcessorState where
  original_image : Pos → RGB
  font_path : String

/-- A call `self.process(...)` with the processor state threaded
explicitly: the method reads `self.original_image` (through a fresh
colour-space conversion, which copies) and `self.font_path`, assigns no
attribute, and returns the new image.  `cv2.cvtColor`, `resize`,
`convert` and `Image.new` all allocate fresh buffers, and the only
in-place operations (`putalpha` on the resized copy, `paste` and
drawing on the overlay) target buffers created inside the call, so no
argument is mutated and the state is returned unchanged. -/
def processCall (s : ProcessorState) (bgW bgH : Nat)
    (textBBox : String → Nat → String → Nat × Nat)
    (textCov : String → Nat → String → Pos → Nat)
    (blur : (Pos → Nat) → Pos → Nat)
    (resize : (Pos → Px) → Int × Int → Pos → Px)
    (text : String) (tp : TextParams)
    (imageWm : Option ((Pos → Px) × Nat × Nat)) (ip : ImageParams) :
    ProcessorState × (Pos → Px) :=
  (s, processImage s.original_image bgW bgH s.font_path textBBox textCov
    blur resize text tp imageWm ip)

/-! ## Helper lemmas -/

/-- Natural floor division, viewed in `ℤ`, is the floor of the exact
rational quotient. -/
lemma natDiv_cast_eq_floor (a b : Nat) : ((a / b : Nat) : ℤ) = ⌊(a : ℚ) / b⌋ := by
  rw [← Nat.floor_div_eq_div (α := ℚ) a b]
  exact Int.natCast_floor_eq_floor (by positivity)

/-- The floor of a rational lies within one below its half-up rounding. -/
lemma round_floor_bracket (x : ℚ) : round x - 1 ≤ ⌊x⌋ ∧ ⌊x⌋ ≤ round x := by
  rw [round_eq]
  constructor
  · have h1 : ⌊x + 1 / 2⌋ ≤ ⌊x + 1⌋ := Int.floor_mono (by linarith)
    have h2 : ⌊x + 1⌋ = ⌊x⌋ + 1 := Int.floor_add_one x
    omega
  · exact Int.floor_mono (by linarith)

/-- Compositing a zero-alpha pixel over the fresh transparent overlay
yields the all-zero pixel. -/
lemma alphaComposite_transparent_of_zero_alpha (src : Px) (h : src.a = 0) :
    alphaCompositePx transparentPx src = ⟨0, 0, 0, 0⟩ := by
  simp [alphaCompositePx, transparentPx, h]

/-- Compositing the all-zero pixel over an opaque base pixel leaves the
base pixel unchanged. -/
lemma alphaComposite_opaque_zero (r g b : Nat) :
    alphaCompositePx ⟨r, g, b, 255⟩ ⟨0, 0, 0, 0⟩ = ⟨r, g, b, 255⟩ := by
  simp only [alphaCompositePx, Px.mk.injEq]
  norm_num
  omega

/-- With zero glyph coverage and a zero blurred mask, the text overlay
pixel is fully transparent. -/
lemma textOverlayPx_zero_cov (fa : Nat) (sh : Bool) (sw si : Nat) :
    (textOverlayPx 0 0 fa sh sw si).a = 0 := by
  unfold textOverlayPx
  by_cases h : sh = true ∧ 0 < sw
  · simp only [h, and_self, if_true, shadowMaskAlpha, alphaCompositePx,
      transparentPx, drawTextPx, blendCoverage]
    norm_num
  · rw [if_neg (by simpa using h)]
    simp only [drawTextPx, blendCoverage, transparentPx]
    norm_num

/-! ## Claim theorems -/

/-- C1: the four corner anchors computed by `apply_text_watermark`
match the spec's formulas exactly — for image size `W×H`, text bbox
`(tw, th)` and non-negative offsets `(ox, oy)`:
bottom-right (右下角) `(W − tw − ox, H − th − oy)`,
bottom-left (左下角) `(ox, H − th − oy)`, top-left (左上角) `(ox, oy)`,
top-right (右上角) `(W − tw − ox, oy)`. -/
theorem text_corner_formulas (W H tw th ox oy : Int)
    (hx : 0 ≤ ox) (hy : 0 ≤ oy) :
    textAnchor W H tw th ox oy "右下角" = (W - tw - ox, H - th - oy) ∧
    textAnchor W H tw th ox oy "左下角" = (ox, H - th - oy) ∧
    textAnchor W H tw th ox oy "左上角" = (ox, oy) ∧
    textAnchor W H tw th ox oy "右上角" = (W - tw - ox, oy) :=
  ⟨rfl, rfl, rfl, rfl⟩

/-- C1 witness: the corner formulas evaluated on an 800×600 image with
a 120×40 text box and offsets (10, 10). -/
theorem text_corner_formulas_witness :
    textAnchor 800 600 120 40 10 10 "右下角" = (670, 550) ∧
    textAnchor 800 600 120 40 10 10 "左下角" = (10, 550) ∧
    textAnchor 800 600 120 40 10 10 "左上角" = (10, 10) ∧
    textAnchor 800 600 120 40 10 10 "右上角" = (670, 10) := by
  have h := text_corner_formulas 800 600 120 40 10 10 (by decide) (by decide)
  norm_num at h ⊢
  exact h

/-- C6: the image-watermark paste position computed by
`apply_image_watermark` matches the spec's side formulas exactly, with
`/2` read as the source's floor division (`//`):
below (下) `(text_x + (tw − wm_w)//2, text_y + th + spacing)`,
above (上) `(text_x + (tw − wm_w)//2, text_y − wm_h − spacing)`,
left (左) `(text_x − wm_w − spacing, text_y + (th − wm_h)//2)`,
right (右) `(text_x + tw + spacing, text_y + (th − wm_h)//2)`. -/
theorem wm_side_formulas (tx ty tw th ww wh sp : Int) :
    wmAnchor tx ty tw th ww wh sp "下"
      = (tx + (tw - ww).fdiv 2, ty + th + sp) ∧
    wmAnchor tx ty tw th ww wh sp "上"
      = (tx + (tw - ww).fdiv 2, ty - wh - sp) ∧
    wmAnchor tx ty tw th ww wh sp "左"
      = (tx - ww - sp, ty + (th - wh).fdiv 2) ∧
    wmAnchor tx ty tw th ww wh sp "右"
      = (tx + tw + sp, ty + (th - wh).fdiv 2) :=
  ⟨rfl, rfl, rfl, rfl⟩

/-- C10: both position lookup tables are read with `.get(key, default)`
and hence never fail: any string outside the four corner names falls
back to the bottom-right anchor, and any string outside the four side
names falls back to the "above" placement. -/
theorem unknown_position_fallback (posT posW : String)
    (h1 : posT ≠ "右下角") (h2 : posT ≠ "左下角")
    (h3 : posT ≠ "左上角") (h4 : posT ≠ "右上角")
    (g1 : posW ≠ "下") (g2 : posW ≠ "上") (g3 : posW ≠ "左") (g4 : posW ≠ "右")
    (W H tw th ox oy tx ty tw2 th2 ww wh sp : Int) :
    textAnchor W H tw th ox oy posT = (W - tw - ox, H - th - oy) ∧
    wmAnchor tx ty tw2 th2 ww wh sp posW
      = (tx + (tw2 - ww).fdiv 2, ty - wh - sp) := by
  constructor
  · simp [textAnchor, h1, h2, h3, h4]
  · simp [wmAnchor, g1, g2, g3, g4]

/-- C10 witness: the fallbacks evaluated at the unrecognised position
string "center". -/
theorem unknown_position_fallback_witness :
    textAnchor 800 600 120 40 10 10 "center" = (670, 550) ∧
    wmAnchor 50 500 40 20 50 50 5 "center" = (45, 445) := by
  have h := unknown_position_fallback "center" "center"
    (by decide) (by decide) (by decide) (by decide)
    (by decide) (by decide) (by decide) (by decide)
    800 600 120 40 10 10 50 500 40 20 50 50 5
  exact ⟨by rw [h.1]; decide, by rw [h.2]; decide⟩

/-- C4: the shadow mask of `apply_text_watermark` is
`ImageChops.subtract(blurred, mask)` scaled, so wherever the glyph mask
is fully covered (value 255, which is the glyph alpha at full opacity)
the clamped subtraction — and with it the shadow alpha — is zero: shadow
pixels never overlap glyph-opaque pixels. -/
theorem shadow_never_covers_glyph (blurred mask : Pos → Nat) (desired : Nat)
    (hb : ∀ p, blurred p ≤ 255) :
    ∀ p, mask p = 255 → shadowMaskAlpha (blurred p) (mask p) desired = 0 := by
  intro p hm
  unfold shadowMaskAlpha
  rw [hm, Nat.sub_eq_zero_of_le (hb p)]
  simp

/-- C4 witness: a pixel whose blurred mask value is 200 and whose glyph
mask is fully covered gets shadow alpha 0. -/
theorem shadow_never_covers_glyph_witness :
    shadowMaskAlpha 200 255 100 = 0 := by
  have hb : ∀ _ : Pos, (200 : Nat) ≤ 255 := fun _ => by decide
  exact shadow_never_covers_glyph (fun _ => 200) (fun _ => 255) 100 hb (0, 0) rfl

/-- C7: in the spec's scenario — background short side 100 (here a
100×520 base), watermark 100×100, size 50 % (so the code's
background-short-side scaling reproduces "50 % of its own size"),
text bbox anchored at (50, 500) with size (40, 20), spacing 5,
placement "above" (上) — the watermark is resized to 50×50 and pasted
at (45, 445). -/
theorem wm_scenario_above :
    wmNewSize 100 520 50 100 100 = (50, 50) ∧
    wmAnchor 50 500 40 20 50 50 5 "上" = (45, 445) := by
  constructor
  · unfold wmNewSize
    norm_num
  · decide

/-- C2 counterexample: the glyph fill alpha is computed by floor
division `opacity * 255 // 100`, so at opacity 50 it is 127, while
`round(50/100 * 255) = round(127.5) = 128`: the claimed round-half-up
formula does not hold. -/
theorem glyph_alpha_not_round :
    glyphOpacityAlpha 50 = 127 ∧ round ((50 : ℚ) / 100 * 255) = 128 := by
  refine ⟨rfl, ?_⟩
  have h : (50 : ℚ) / 100 * 255 + 1 / 2 = ((128 : ℤ) : ℚ) := by norm_num
  rw [round_eq, h, Int.floor_intCast]

/-- C2 (amended): for every opacity in [0, 100] the glyph fill alpha —
which is also the alpha of a fully-covered glyph pixel drawn on the
fresh transparent overlay — equals `⌊opacity·255/100⌋` (the source's
floor division), which is at most 255 and within one below the claimed
`round(opacity/100·255)`. -/
theorem glyph_alpha_floor_of_round (ω : Nat) (hω : ω ≤ 100) :
    glyphOpacityAlpha ω ≤ 255 ∧
    (glyphOpacityAlpha ω : ℤ) = ⌊(ω : ℚ) / 100 * 255⌋ ∧
    round ((ω : ℚ) / 100 * 255) - 1 ≤ (glyphOpacityAlpha ω : ℤ) ∧
    (glyphOpacityAlpha ω : ℤ) ≤ round ((ω : ℚ) / 100 * 255) ∧
    (drawTextPx transparentPx 255 ⟨255, 255, 255, glyphOpacityAlpha ω⟩).a
      = glyphOpacityAlpha ω := by
  have hfloor : (glyphOpacityAlpha ω : ℤ) = ⌊(ω : ℚ) / 100 * 255⌋ := by
    have h : (ω : ℚ) / 100 * 255 = ((ω * 255 : Nat) : ℚ) / ((100 : Nat) : ℚ) := by
      push_cast
      ring
    rw [h, glyphOpacityAlpha]
    exact natDiv_cast_eq_floor (ω * 255) 100
  refine ⟨?_, hfloor, ?_, ?_, ?_⟩
  · calc glyphOpacityAlpha ω ≤ 100 * 255 / 100 :=
        Nat.div_le_div_right (Nat.mul_le_mul_right _ hω)
    _ = 255 := by norm_num
  · rw [hfloor]
    exact (round_floor_bracket _).1
  · rw [hfloor]
    exact (round_floor_bracket _).2
  · simp only [drawTextPx, blendCoverage, transparentPx]
    omega

/-- C2 witness: the amended statement evaluated at opacity 50. -/
theorem glyph_alpha_floor_of_round_witness :
    (50 : Nat) ≤ 100 ∧ glyphOpacityAlpha 50 ≤ 255 ∧
    (glyphOpacityAlpha 50 : ℤ) = ⌊(50 : ℚ) / 100 * 255⌋ ∧
    round ((50 : ℚ) / 100 * 255) - 1 ≤ (glyphOpacityAlpha 50 : ℤ) ∧
    (glyphOpacityAlpha 50 : ℤ) ≤ round ((50 : ℚ) / 100 * 255) ∧
    (drawTextPx transparentPx 255 ⟨255, 255, 255, glyphOpacityAlpha 50⟩).a
      = glyphOpacityAlpha 50 := by
  have h := glyph_alpha_floor_of_round 50 (by decide)
  exact ⟨by decide, h.1, h.2.1, h.2.2.1, h.2.2.2.1, h.2.2.2.2⟩

/-- C5 counterexample: `apply_image_watermark` computes the stored
alpha as `(opacity·255//100)·a//255`, quantising the opacity to 8 bits
first.  At opacity 50 and source alpha 254 this yields 126, while the
claimed proportional value `254·50/100 = 127` is an exact integer
(`254·50 % 100 = 0`), so the claimed pixel-wise multiplication by
`opacity/100` does not hold even where it is exact. -/
theorem wm_alpha_not_proportional :
    wmAlphaApplied 50 254 = 126 ∧ wmAlphaSpec 50 254 = 127 ∧
    254 * 50 % 100 = 0 := by
  decide

set_option maxRecDepth 4000 in
/-- Exhaustive check over all opacities in [0, 100] and alphas in
[0, 255]: the stored alpha never exceeds the proportional value and is
within one below it. -/
lemma wm_alpha_bracket_aux :
    ∀ ω : Fin 101, ∀ a : Fin 256,
      wmAlphaApplied ω a ≤ wmAlphaSpec ω a ∧
      wmAlphaSpec ω a ≤ wmAlphaApplied ω a + 1 := by
  decide

/-- C5 (amended): for every opacity in [0, 100] and source alpha in
[0, 255], the alpha stored by `apply_image_watermark` is
`(opacity·255//100)·a//255` — the source alpha scaled by the
8-bit-quantised opacity — which is within one below the proportional
value `⌊a·opacity/100⌋` (and in particular still scales the existing
alpha pixel-wise rather than replacing it). -/
theorem wm_alpha_proportional_within_one (ω a : Nat)
    (hω : ω ≤ 100) (ha : a ≤ 255) :
    wmAlphaApplied ω a ≤ wmAlphaSpec ω a ∧
    wmAlphaSpec ω a ≤ wmAlphaApplied ω a + 1 := by
  have h := wm_alpha_bracket_aux ⟨ω, by omega⟩ ⟨a, by omega⟩
  simpa using h

/-- C5 witness: the amended bracket evaluated at opacity 50, source
alpha 254. -/
theorem wm_alpha_proportional_within_one_witness :
    (50 : Nat) ≤ 100 ∧ (254 : Nat) ≤ 255 ∧
    wmAlphaApplied 50 254 ≤ wmAlphaSpec 50 254 ∧
    wmAlphaSpec 50 254 ≤ wmAlphaApplied 50 254 + 1 := by
  have h := wm_alpha_proportional_within_one 50 254 (by decide) (by decide)
  exact ⟨by decide, by decide, h.1, h.2⟩

/-- C8 counterexample: `process` performs no numeric validation and no
`ConfigurationError` type exists anywhere in the source; an
out-of-range opacity of 150 is propagated straight into the glyph fill
alpha `150·255//100 = 382 > 255` used for rendering, instead of
failing before rendering begins. -/
theorem out_of_range_opacity_flows_through :
    glyphOpacityAlpha 150 = 382 ∧ 255 < glyphOpacityAlpha 150 := by
  decide

/-- C8 (amended): `process` never rejects an out-of-range opacity: the
conversion it applies is total, and for every opacity above 100 the
resulting glyph fill alpha exceeds 255 and is carried into the drawn
overlay (here the alpha of a fully-covered glyph pixel), so rendering
proceeds with an out-of-gamut value rather than failing.  (Non-numeric
field content fails at the `int()` conversions in the GUI callers,
before `process` is invoked.) -/
theorem process_has_no_opacity_validation (ω : Nat) (h : 100 < ω) :
    255 < glyphOpacityAlpha ω ∧
    255 < (drawTextPx transparentPx 255 ⟨255, 255, 255, glyphOpacityAlpha ω⟩).a := by
  constructor
  · unfold glyphOpacityAlpha
    omega
  · simp only [drawTextPx, blendCoverage, transparentPx]
    unfold glyphOpacityAlpha
    omega

/-- C8 witness: the unvalidated propagation evaluated at opacity 150. -/
theorem process_has_no_opacity_validation_witness :
    100 < (150 : Nat) ∧ 255 < glyphOpacityAlpha 150 ∧
    255 < (drawTextPx transparentPx 255 ⟨255, 255, 255, glyphOpacityAlpha 150⟩).a := by
  have h := process_has_no_opacity_validation 150 (by decide)
  exact ⟨by decide, h.1, h.2⟩

/-- C9: `process` with the processor state threaded explicitly returns
the state unchanged (it reads `self.original_image` and
`self.font_path` and assigns nothing; every in-place image operation
targets a buffer allocated inside the call), and a second call with the
same inputs — made from the state the first call returned — produces
the same image, so calls are independent and repeatable. -/
theorem process_state_frame (s : ProcessorState) (bgW bgH : Nat)
    (textBBox : String → Nat → String → Nat × Nat)
    (textCov : String → Nat → String → Pos → Nat)
    (blur : (Pos → Nat) → Pos → Nat)
    (resize : (Pos → Px) → Int × Int → Pos → Px)
    (text : String) (tp : TextParams)
    (imageWm : Option ((Pos → Px) × Nat × Nat)) (ip : ImageParams) :
    (processCall s bgW bgH textBBox textCov blur resize text tp imageWm ip).1
      = s ∧
    (processCall
        (processCall s bgW bgH textBBox textCov blur resize text tp imageWm ip).1
        bgW bgH textBBox textCov blur resize text tp imageWm ip).2
      = (processCall s bgW bgH textBBox textCov blur resize text tp imageWm ip).2 :=
  ⟨rfl, rfl⟩

/-- C3: `process` with the empty text string and no image watermark is
the identity up to alpha flattening: assuming the rasteriser gives the
empty string zero coverage and Gaussian blur maps the all-zero mask to
the all-zero mask, every output pixel equals the base pixel with alpha
255 (the RGBA-converted, i.e. alpha-flattened, base image). -/
theorem process_empty_text_identity (base : Pos → RGB) (bgW bgH : Nat)
    (fontPath : String)
    (textBBox : String → Nat → String → Nat × Nat)
    (textCov : String → Nat → String → Pos → Nat)
    (blur : (Pos → Nat) → Pos → Nat)
    (resize : (Pos → Px) → Int × Int → Pos → Px)
    (tp : TextParams) (ip : ImageParams)
    (hcov : ∀ fp sz p, textCov fp sz "" p = 0)
    (hblur : ∀ f, (∀ p, f p = 0) → ∀ p, blur f p = 0) :
    ∀ p, processImage base bgW bgH fontPath textBBox textCov blur resize
        "" tp none ip p
      = ⟨(base p).1, (base p).2.1, (base p).2.2, 255⟩ := by
  intro p
  have hc : textCov fontPath (min bgW bgH * tp.font_size / 100) "" p = 0 :=
    hcov _ _ p
  have hb : blur (textCov fontPath (min bgW bgH * tp.font_size / 100) "") p = 0 :=
    hblur _ (fun q => hcov _ _ q) p
  simp only [processImage, hc, hb]
  rw [alphaComposite_transparent_of_zero_alpha _ (textOverlayPx_zero_cov _ _ _ _),
    alphaComposite_opaque_zero]

/-- C3 witness: the empty-text identity evaluated on a concrete base
image, rasteriser and blur at the pixel (0, 0). -/
theorem process_empty_text_identity_witness :
    processImage (fun _ => (10, 20, 30)) 800 600 "simhei"
      (fun _ _ _ => (0, 0)) (fun _ _ t _ => if t = "" then 0 else 200)
      (fun f p => f p) (fun w _ => w) ""
      ⟨"右下角", 10, 50, 120, 120, true, 5, 50⟩ none ⟨"上", 10, 80, 5⟩ (0, 0)
      = ⟨10, 20, 30, 255⟩ := by
  exact process_empty_text_identity (fun _ => (10, 20, 30)) 800 600 "simhei"
    (fun _ _ _ => (0, 0)) (fun _ _ t _ => if t = "" then 0 else 200)
    (fun f p => f p) (fun w _ => w)
    ⟨"右下角", 10, 50, 120, 120, true, 5, 50⟩ ⟨"上", 10, 80, 5⟩
    (fun _ _ _ => rfl) (fun f hf p => hf p) (0, 0)

